import Mathlib

/-!
Shallow embedding of `src/convert.rs` from the s2-grpc-utils conversion layer,
together with executable models of the external collaborators it delegates to
(`serde_json` text encoding/decoding, `prost_types::{Any, Timestamp}`, and
`chrono::{DateTime<Utc>, NaiveDateTime}`).

Modelling choices, stated once here:

* `serde_json::Value` is the inductive `Value` below.  Its `Object` variant is a
  `BTreeMap<String, Value>` in the source; we model it as an association list
  whose well-formedness invariant (`Value.wf`) demands strictly increasing keys
  in UTF-8 byte order, exactly the invariant the b-tree maintains.  Numbers are
  modelled as arbitrary-precision integers; floating-point payloads are outside
  the model.
* Byte sequences (`Vec<u8>` payloads) are modelled as the text they decode to:
  the payloads this crate produces are always valid UTF-8, and UTF-8 decoding is
  injective, so `String`/`List Char` is a faithful carrier.
* `serde_json::to_vec` is the executable compact printer `printValue`;
  `serde_json::from_reader` is the executable recursive-descent reader
  `parseValue` (compact text: the printer emits no whitespace, and the reader is
  modelled on that fragment).  Serde errors are carried as messages (`String`).
* A Rust panic is modelled as `Option.none`; total Rust functions are embedded
  as total Lean functions.  Only `chrono`'s `NaiveDateTime::from_timestamp`
  (documented "Panics on the out-of-range number of seconds and/or invalid
  nanosecond") can panic in this source, so only the timestamp unpack direction
  carries the `Option` layer.
* `chrono` dates are counted in days from the epoch; `MIN_DAYS`/`MAX_DAYS` are
  the day numbers of `NaiveDate::MIN` (January 1, -262144) and
  `NaiveDate::MAX` (December 31, 262143).
-/

/-! ## The structured value model (`serde_json::Value`) -/

/-- Untyped structured JSON-like tree, modelling `serde_json::Value` with
integer numbers and object maps carried as key-sorted association lists. -/
inductive Value where
  | null
  | bool (b : Bool)
  | num (n : Int)
  | str (s : String)
  | arr (elems : List Value)
  | obj (entries : List (String × Value))

/-- Strict lexicographic order on character lists by code point, which agrees
with the byte order `BTreeMap<String, _>` sorts by, because UTF-8 preserves
code-point order. -/
def keyLtL : List Char → List Char → Bool
  | [], [] => false
  | [], _c :: _cs => true
  | _c :: _cs, [] => false
  | x :: xs, y :: ys =>
    if x.toNat < y.toNat then true
    else if y.toNat < x.toNat then false
    else keyLtL xs ys

/-- Strict key order on `String`, modelling the `Ord` instance `BTreeMap` uses. -/
def keyLt (a b : String) : Bool := keyLtL a.data b.data

/-- Each key is strictly below every later key: the shape of an association
list that images a `BTreeMap`. -/
def keysSorted : List (String × Value) → Bool
  | [] => true
  | e :: t => (t.all fun e2 => keyLt e.1 e2.1) && keysSorted t

mutual

/-- Well-formedness of a structured value: every object node is key-sorted.
Values built by `serde_json` always satisfy this, it being the `BTreeMap`
invariant made explicit on the association-list carrier. -/
def Value.wf : Value → Bool
  | .null | .bool _ | .num _ | .str _ => true
  | .arr xs => wfItems xs
  | .obj kvs => keysSorted kvs && wfEntries kvs

/-- All array elements are well-formed. -/
def wfItems : List Value → Bool
  | [] => true
  | x :: t => Value.wf x && wfItems t

/-- All object entry values are well-formed. -/
def wfEntries : List (String × Value) → Bool
  | [] => true
  | e :: t => Value.wf e.2 && wfEntries t

end

/-! ## The compact JSON printer (`serde_json::to_vec`) -/

/-- Decimal digits of `n`, most significant first, pushed onto `acc`; the fuel
argument only bounds the recursion and any `fuel > n` is enough. -/
def natCharsCore : Nat → Nat → List Char → List Char
  | 0, _, acc => acc
  | fuel+1, n, acc => if n = 0 then acc else natCharsCore fuel (n / 10) (Nat.digitChar (n % 10) :: acc)

/-- Decimal rendering of a natural number. -/
def natChars (n : Nat) : List Char := if n = 0 then ['0'] else natCharsCore (n + 1) n []

/-- Decimal rendering of an integer, minus sign included. -/
def intChars (n : Int) : List Char :=
  if n < 0 then '-' :: natChars n.natAbs else natChars n.toNat

/-- Escape for one character inside a JSON string, following serde_json:
quote and backslash get two-character escapes, control characters get their
short names or a `\u00XX` form, and everything else is written as itself. -/
def escapeOne (c : Char) : List Char :=
  if c = '"' then ['\\', '"']
  else if c = '\\' then ['\\', '\\']
  else if c.toNat < 32 then
    if c.toNat = 8 then ['\\', 'b']
    else if c.toNat = 9 then ['\\', 't']
    else if c.toNat = 10 then ['\\', 'n']
    else if c.toNat = 12 then ['\\', 'f']
    else if c.toNat = 13 then ['\\', 'r']
    else ['\\', 'u', '0', '0', Nat.digitChar (c.toNat / 16), Nat.digitChar (c.toNat % 16)]
  else [c]

/-- Escape a whole character sequence. -/
def escapeChars : List Char → List Char
  | [] => []
  | c :: t => escapeOne c ++ escapeChars t

/-- Print a JSON string literal, quotes included. -/
def strChars (s : String) : List Char := '"' :: escapeChars s.data ++ ['"']

mutual

/-- Compact JSON text of a structured value, modelling `serde_json::to_vec`
(which emits no whitespace and writes map entries in key order). -/
def printValue : Value → List Char
  | .null => 'n' :: 'u' :: 'l' :: 'l' :: []
  | .bool true => 't' :: 'r' :: 'u' :: 'e' :: []
  | .bool false => 'f' :: 'a' :: 'l' :: 's' :: 'e' :: []
  | .num n => intChars n
  | .str s => strChars s
  | .arr xs => '[' :: printItems xs ++ [']']
  | .obj kvs => '\x7b' :: printEntries kvs ++ ['\x7d']

/-- Comma-separated rendering of array elements. -/
def printItems : List Value → List Char
  | [] => []
  | [x] => printValue x
  | x :: y :: t => printValue x ++ ',' :: printItems (y :: t)

/-- Comma-separated rendering of object entries, each `"key":value`. -/
def printEntries : List (String × Value) → List Char
  | [] => []
  | [e] => strChars e.1 ++ ':' :: printValue e.2
  | e :: e2 :: t => strChars e.1 ++ ':' :: printValue e.2 ++ ',' :: printEntries (e2 :: t)

end

/-! ## The JSON reader (`serde_json::from_reader`) -/

/-- Decimal digit test on a character. -/
def isDigitC (c : Char) : Bool := 48 ≤ c.toNat && c.toNat ≤ 57

/-- Numeric value of a decimal digit character. -/
def digitVal (c : Char) : Nat := c.toNat - 48

/-- Consume a maximal run of decimal digits, folding them onto `acc`. -/
def parseDigitsAux : Nat → List Char → Nat × List Char
  | acc, [] => (acc, [])
  | acc, c :: rest => if isDigitC c then parseDigitsAux (acc * 10 + digitVal c) rest else (acc, c :: rest)

/-- Single-character string escapes recognised by the reader. -/
def unescapeChar (c : Char) : Option Char :=
  if c = '"' then some '"'
  else if c = '\\' then some '\\'
  else if c = '/' then some '/'
  else if c = 'b' then some '\x08'
  else if c = 't' then some '\x09'
  else if c = 'n' then some '\x0a'
  else if c = 'f' then some '\x0c'
  else if c = 'r' then some '\x0d'
  else none

/-- Value of a hexadecimal digit character, with `16` marking a non-digit. -/
def hexVal (c : Char) : Nat :=
  if 48 ≤ c.toNat && c.toNat ≤ 57 then c.toNat - 48
  else if 97 ≤ c.toNat && c.toNat ≤ 102 then c.toNat - 87
  else if 65 ≤ c.toNat && c.toNat ≤ 70 then c.toNat - 55
  else 16

/-- Value of four hexadecimal digits at the front of the input. -/
def readHex4v : List Char → Option Nat
  | h1 :: h2 :: h3 :: h4 :: _ =>
    if hexVal h1 < 16 && hexVal h2 < 16 && hexVal h3 < 16 && hexVal h4 < 16 then
      some (((hexVal h1 * 16 + hexVal h2) * 16 + hexVal h3) * 16 + hexVal h4)
    else none
  | _ => none

/-- Value of a `\uXXXX` form carrying a low surrogate at the front of the
input, for the second half of a surrogate pair. -/
def readLowSurrogatev : List Char → Option Nat
  | b1 :: b2 :: rest =>
    if b1 = '\\' then
      if b2 = 'u' then
        match readHex4v rest with
        | some m => if 56320 ≤ m && m ≤ 57343 then some m else none
        | none => none
      else none
    else none
  | _ => none

/-- Read the body of a string literal after the opening quote: plain characters
up to the closing quote, backslash escapes, `\uXXXX` forms with surrogate
pairs, raw control characters rejected. -/
def parseStringBody : List Char → Except String (List Char × List Char)
  | [] => .error "unterminated string"
  | c :: rest =>
    if c = '"' then .ok ([], rest)
    else if c = '\\' then
      match rest with
      | [] => .error "unterminated escape"
      | e :: rest2 =>
        if e = 'u' then
          match readHex4v rest2 with
          | some n =>
            if 55296 ≤ n && n ≤ 56319 then
              match readLowSurrogatev (rest2.drop 4) with
              | some m =>
                match parseStringBody (rest2.drop 10) with
                | .ok (s, r) =>
                  .ok (Char.ofNat (65536 + (n - 55296) * 1024 + (m - 56320)) :: s, r)
                | .error err => .error err
              | none => .error "unexpected high surrogate"
            else if 56320 ≤ n && n ≤ 57343 then .error "unexpected low surrogate"
            else
              match parseStringBody (rest2.drop 4) with
              | .ok (s, r) => .ok (Char.ofNat n :: s, r)
              | .error err => .error err
          | none => .error "invalid hex escape"
        else
          match unescapeChar e with
          | some c2 =>
            match parseStringBody rest2 with
            | .ok (s, r) => .ok (c2 :: s, r)
            | .error err => .error err
          | none => .error "invalid escape"
    else if c.toNat < 32 then .error "control character in string"
    else
      match parseStringBody rest with
      | .ok (s, r) => .ok (c :: s, r)
      | .error err => .error err
termination_by l => l.length
decreasing_by
  all_goals simp
  all_goals omega

/-- Insert one parsed object entry, modelling `BTreeMap::insert`: keys stay
strictly sorted and a repeated key replaces the earlier value. -/
def insertSorted (k : String) (v : Value) : List (String × Value) → List (String × Value)
  | [] => [(k, v)]
  | (k', v') :: t =>
    if keyLt k k' then (k, v) :: (k', v') :: t
    else if k = k' then (k, v) :: t
    else (k', v') :: insertSorted k v t

/-- Build the object map from entries in source order, modelling the reader
inserting each parsed entry into a `BTreeMap`. -/
def mkObj (entries : List (String × Value)) : List (String × Value) :=
  entries.foldl (fun acc e => insertSorted e.1 e.2 acc) []

mutual

/-- Recursive-descent reader for one JSON value.  The fuel argument only
bounds nesting, and any fuel above the input length is enough. -/
def parseValue : Nat → List Char → Except String (Value × List Char)
  | 0, _ => .error "recursion limit exceeded"
  | fuel+1, input =>
    match input with
    | [] => .error "unexpected end of input"
    | c :: rest =>
      if isDigitC c then
        let p := parseDigitsAux 0 (c :: rest)
        .ok (.num (Int.ofNat p.1), p.2)
      else if c = '-' then
        match rest with
        | d :: rest2 =>
          if isDigitC d then
            let p := parseDigitsAux 0 (d :: rest2)
            .ok (.num (-(Int.ofNat p.1)), p.2)
          else .error "invalid number"
        | [] => .error "invalid number"
      else if c = 'n' then
        match rest with
        | 'u' :: 'l' :: 'l' :: r => .ok (.null, r)
        | _ => .error "invalid literal"
      else if c = 't' then
        match rest with
        | 'r' :: 'u' :: 'e' :: r => .ok (.bool true, r)
        | _ => .error "invalid literal"
      else if c = 'f' then
        match rest with
        | 'a' :: 'l' :: 's' :: 'e' :: r => .ok (.bool false, r)
        | _ => .error "invalid literal"
      else if c = '"' then
        match parseStringBody rest with
        | .ok (s, r) => .ok (.str (String.mk s), r)
        | .error e => .error e
      else if c = '[' then
        if rest.head? = some ']' then .ok (.arr [], rest.tail)
        else
          match parseItemsNE fuel rest with
          | .ok (vs, r) => .ok (.arr vs, r)
          | .error e => .error e
      else if c = '\x7b' then
        if rest.head? = some '\x7d' then .ok (.obj [], rest.tail)
        else
          match parseEntriesNE fuel rest with
          | .ok (es, r) => .ok (.obj (mkObj es), r)
          | .error e => .error e
      else .error "unexpected character"

/-- Read the elements of a non-empty array, after the opening bracket. -/
def parseItemsNE : Nat → List Char → Except String (List Value × List Char)
  | 0, _ => .error "recursion limit exceeded"
  | fuel+1, input =>
    match parseValue fuel input with
    | .error e => .error e
    | .ok (v, r) =>
      match r with
      | c :: r2 =>
        if c = ',' then
          match parseItemsNE fuel r2 with
          | .ok (vs, r3) => .ok (v :: vs, r3)
          | .error e => .error e
        else if c = ']' then .ok ([v], r2)
        else .error "expected comma or closing bracket"
      | [] => .error "expected comma or closing bracket"

/-- Read the entries of a non-empty object, after the opening brace. -/
def parseEntriesNE : Nat → List Char → Except String (List (String × Value) × List Char)
  | 0, _ => .error "recursion limit exceeded"
  | fuel+1, input =>
    match input with
    | c0 :: r0 =>
      if c0 = '"' then
        match parseStringBody r0 with
        | .error e => .error e
        | .ok (k, r1) =>
          match r1 with
          | c1 :: r2 =>
            if c1 = ':' then
              match parseValue fuel r2 with
              | .error e => .error e
              | .ok (v, r3) =>
                match r3 with
                | c3 :: r4 =>
                  if c3 = ',' then
                    match parseEntriesNE fuel r4 with
                    | .ok (es, r5) => .ok ((String.mk k, v) :: es, r5)
                    | .error e => .error e
                  else if c3 = '\x7d' then .ok ([(String.mk k, v)], r4)
                  else .error "expected comma or closing brace"
                | [] => .error "expected comma or closing brace"
            else .error "expected colon"
          | [] => .error "expected colon"
      else .error "expected object key"
    | [] => .error "expected object key"

end

/-- Decode a complete payload as one JSON value with nothing after it,
modelling `serde_json::from_reader::<_, Value>` over the payload bytes. -/
def serde_from_slice (payload : String) : Except String Value :=
  match parseValue (payload.data.length + 1) payload.data with
  | .ok (v, []) => .ok v
  | .ok (_, _ :: _) => .error "trailing characters"
  | .error e => .error e

/-- Encode a structured value to its compact JSON payload, modelling
`serde_json::to_vec` (which cannot fail on a `Value`). -/
def serde_to_vec (v : Value) : String := String.mk (printValue v)

/-! ## The crate error type (`src/result.rs` as used by `convert.rs`) -/

/-- Conversion error kinds of the crate: a wrapped serde error, an envelope
type tag the consumer does not recognise, and an absent required value. -/
inductive Error where
  | Json (source : String)
  | JsonTypeUrlUnknown (type_url : String)
  | ValueNotPresent
  deriving DecidableEq

/-- Result alias of the crate. -/
abbrev Result (α : Type) : Type := Except Error α

/-! ## Wire types (`prost_types::Any`, `prost_types::Timestamp`) -/

/-- Generic envelope wire record: a type tag and opaque payload bytes,
the latter carried as the text they decode to. -/
structure Any where
  type_url : String
  value : String
  deriving DecidableEq

/-- Timestamp wire record: seconds since the epoch and a sub-second
nanosecond field, both signed on the wire. -/
structure Timestamp where
  seconds : Int
  nanos : Int
  deriving DecidableEq

/-! ## `impl_option!`: the optionality-lifting macro -/

/-- Optional-to-optional pack derived by `impl_option!`: absence stays
absence, presence packs through the base conversion. -/
def packOptionOption (packF : α → Result β) : Option α → Result (Option β)
  | some value => match packF value with
    | .ok w => .ok (some w)
    | .error e => .error e
  | none => .ok none

/-- Optional-to-optional unpack derived by `impl_option!`. -/
def unpackOptionOption (unpackF : β → Result α) : Option β → Result (Option α)
  | some value => match unpackF value with
    | .ok n => .ok (some n)
    | .error e => .error e
  | none => .ok none

/-- Required-in-native pack derived by `impl_option!`: always wraps the base
pack in `some`. -/
def packRequired (packF : α → Result β) (value : α) : Result (Option β) :=
  match packF value with
  | .ok w => .ok (some w)
  | .error e => .error e

/-- Required-in-native unpack derived by `impl_option!`: presence delegates to
the base conversion, absence is the `ValueNotPresent` error. -/
def unpackRequired (unpackF : β → Result α) : Option β → Result α
  | some value => unpackF value
  | none => .error .ValueNotPresent

/-! ## JSON value ↔ `Any` (`convert.rs` lines 51-76) -/

/-- Type tag constant the crate packs JSON payloads under. -/
def JSON_TYPE_URL : String := "s2/json"

/-- Pack a structured value into an envelope: fixed JSON tag, compact JSON
payload (`impl S2ProtoPack<Any> for Value`). -/
def Value.pack (v : Value) : Result Any :=
  .ok ⟨JSON_TYPE_URL, serde_to_vec v⟩

/-- Unpack an envelope into a structured value: an unrecognised tag fails with
`JsonTypeUrlUnknown` carrying the tag, a recognised tag decodes the payload,
wrapping any decode failure in `Json` (`impl S2ProtoUnpack<Any> for Value`). -/
def Value.unpack (a : Any) : Result Value :=
  if a.type_url = JSON_TYPE_URL then
    match serde_from_slice a.value with
    | .ok v => .ok v
    | .error e => .error (.Json e)
  else .error (.JsonTypeUrlUnknown a.type_url)

/-! ## `Json<T>`: boxed serializable values (`convert.rs` lines 78-138) -/

/-- Serialization capability of a native type `T`, modelling the
`Serialize + Deserialize` bound: to and from the structured tree, fallibly,
with serde errors carried as messages. -/
structure Serde (T : Type) where
  toValue : T → Except String Value
  fromValue : Value → Except String T

/-- Helper wrapper to convert any serializable type from/to the envelope,
modelling `pub struct Json<T>(pub T)`. -/
structure Json (T : Type) where
  val : T

/-- Pack any serializable value: native value to structured tree, then the
structured-value pack above (`pub fn pack_any`). -/
def pack_any (s : Serde T) (value : T) : Result Any :=
  match s.toValue value with
  | .ok v => v.pack
  | .error e => .error (.Json e)

/-- Unpack any serializable value: envelope to structured tree, then decode
into the target type (`pub fn unpack_any`). -/
def unpack_any (s : Serde T) (a : Any) : Result T :=
  match Value.unpack a with
  | .ok v =>
    match s.fromValue v with
    | .ok x => .ok x
    | .error e => .error (.Json e)
  | .error e => .error e

/-- Pack for the boxed wrapper (`impl S2ProtoPack<Any> for Json<T>`). -/
def Json.pack (s : Serde T) (j : Json T) : Result Any := pack_any s j.val

/-- Unpack for the boxed wrapper (`impl S2ProtoUnpack<Any> for Json<T>`). -/
def Json.unpack (s : Serde T) (a : Any) : Result (Json T) :=
  match unpack_any s a with
  | .ok x => .ok ⟨x⟩
  | .error e => .error e

/-- Hand-written optional pack for the boxed wrapper
(`impl S2ProtoPack<Option<Any>> for Option<Json<T>>`, lines 99-110). -/
def Json.packOption (s : Serde T) : Option (Json T) → Result (Option Any)
  | some value => match Json.pack s value with
    | .ok w => .ok (some w)
    | .error e => .error e
  | none => .ok none

/-- Hand-written optional unpack for the boxed wrapper
(`impl S2ProtoUnpack<Option<Any>> for Option<Json<T>>`, lines 112-123). -/
def Json.unpackOption (s : Serde T) : Option Any → Result (Option (Json T))
  | some value => match Json.unpack s value with
    | .ok j => .ok (some j)
    | .error e => .error e
  | none => .ok none

/-! ## Timestamps (`convert.rs` lines 140-158, `chrono` modelled) -/

/-- Day number of `chrono::NaiveDate::MIN` (January 1, -262144) counted from
the 1970-01-01 epoch in the proleptic Gregorian calendar. -/
def MIN_DAYS : Int := -96465658

/-- Day number of `chrono::NaiveDate::MAX` (December 31, 262143). -/
def MAX_DAYS : Int := 95026601

/-- Calendar timestamp modelling `chrono::NaiveDateTime`: a day number, the
second of the day in `[0, 86400)`, and nanoseconds in `[0, 2_000_000_000)`
(values at or above `1_000_000_000` encode a leap second). -/
structure NaiveDateTime where
  days : Int
  sod : Nat
  nsecs : Nat
  deriving DecidableEq

/-- UTC instant modelling `chrono::DateTime<Utc>` (`DateTime::from_utc` pairs
the naive value with the zero offset). -/
structure DateTimeUtc where
  naiveUtc : NaiveDateTime
  deriving DecidableEq

/-- Seconds since the epoch, modelling `DateTime::timestamp`. -/
def DateTimeUtc.timestamp (d : DateTimeUtc) : Int :=
  d.naiveUtc.days * 86400 + (d.naiveUtc.sod : Int)

/-- Sub-second nanoseconds, modelling `DateTime::timestamp_subsec_nanos`
(which reports leap seconds as values at or above `1_000_000_000`). -/
def DateTimeUtc.timestampSubsecNanos (d : DateTimeUtc) : Nat :=
  d.naiveUtc.nsecs

/-- Rust `as i32` on an unsigned value: two's-complement reinterpretation. -/
def i32OfNat (n : Nat) : Int := ((n : Int) + 2147483648) % 4294967296 - 2147483648

/-- Rust `as u32` on an `i32` value: two's-complement reinterpretation. -/
def u32OfInt (i : Int) : Nat := (i % 4294967296).toNat

/-- Checked construction from an epoch-second count and nanoseconds, modelling
`chrono::NaiveDateTime::from_timestamp_opt`: `none` when the nanosecond field
is not below two billion or the day number leaves the calendar range. -/
def NaiveDateTime.fromTimestampOpt (secs : Int) (nsecs : Nat) : Option NaiveDateTime :=
  if nsecs < 2000000000 then
    let d := secs / 86400
    if MIN_DAYS ≤ d ∧ d ≤ MAX_DAYS then
      some ⟨d, (secs % 86400).toNat, nsecs⟩
    else none
  else none

/-- Pack a UTC instant into the timestamp wire record
(`impl S2ProtoPack<Timestamp> for DateTime<Utc>`). -/
def DateTimeUtc.pack (d : DateTimeUtc) : Result Timestamp :=
  .ok ⟨d.timestamp, i32OfNat d.timestampSubsecNanos⟩

/-- Unpack a timestamp wire record, modelling the source's call to the
panicking `NaiveDateTime::from_timestamp(seconds, nanos as u32)` followed by
`Ok(DateTime::from_utc(dt, Utc))`; `none` is the panic
(`impl S2ProtoUnpack<Timestamp> for DateTime<Utc>`). -/
def DateTimeUtc.unpack (t : Timestamp) : Option (Result DateTimeUtc) :=
  match NaiveDateTime.fromTimestampOpt t.seconds (u32OfInt t.nanos) with
  | some dt => some (.ok ⟨dt⟩)
  | none => none

/-- Optional-to-optional unpack the macro derives at the timestamp pairing;
the base unpack can panic, and the panic propagates through the `Some` arm. -/
def DateTimeUtc.unpackOptionOption : Option Timestamp → Option (Result (Option DateTimeUtc))
  | some value => match DateTimeUtc.unpack value with
    | some (.ok n) => some (.ok (some n))
    | some (.error e) => some (.error e)
    | none => none
  | none => some (.ok none)

/-- Required-in-native unpack the macro derives at the timestamp pairing. -/
def DateTimeUtc.unpackRequired : Option Timestamp → Option (Result DateTimeUtc)
  | some value => DateTimeUtc.unpack value
  | none => some (.error .ValueNotPresent)

/-! ## `impl_self!`: identity conversions for scalars (lines 160-191) -/

/-- Identity pack generated by `impl_self!` for each scalar type and its
optional form; the body is type-independent. -/
def implSelfPack (value : α) : Result α := .ok value

/-- Identity unpack generated by `impl_self!`. -/
def implSelfUnpack (value : α) : Result α := .ok value

/-! ## The table of optionality-lifted conversions per base pairing -/

/-- Record of which optionality-lifted conversions `convert.rs` defines for a
native/wire pairing; a `none` field records that no such `impl` exists in the
source.  Unpack directions use the panic-aware type, total conversions being
injected with an outer `some`. -/
structure Lifting (N W : Type) where
  packOpt : Option (Option N → Result (Option W))
  unpackOpt : Option (Option W → Option (Result (Option N)))
  packReq : Option (N → Result (Option W))
  unpackReq : Option (Option W → Option (Result N))

/-- Lifted conversions for the structured-value pairing:
`impl_option!(Value => Any)` derives all four. -/
def valueAnyLifting : Lifting Value Any where
  packOpt := some (packOptionOption Value.pack)
  unpackOpt := some fun w => some (unpackOptionOption Value.unpack w)
  packReq := some (packRequired Value.pack)
  unpackReq := some fun w => some (unpackRequired Value.unpack w)

/-- Lifted conversions for the timestamp pairing:
`impl_option!(DateTime<Utc> => Timestamp)` derives all four. -/
def dateTimeTimestampLifting : Lifting DateTimeUtc Timestamp where
  packOpt := some (packOptionOption DateTimeUtc.pack)
  unpackOpt := some DateTimeUtc.unpackOptionOption
  packReq := some (packRequired DateTimeUtc.pack)
  unpackReq := some DateTimeUtc.unpackRequired

/-- Lifted conversions for a scalar pairing: `impl_self!` gives the optional
form its own identity conversions (which coincide with rule-1 lifting of the
identity base), and no required-in-native `impl` exists for any scalar. -/
def scalarLifting (α : Type) : Lifting α α where
  packOpt := some (implSelfPack (α := Option α))
  unpackOpt := some fun w => some (implSelfUnpack (α := Option α) w)
  packReq := none
  unpackReq := none

/-- Lifted conversions for the boxed-wrapper pairing: the hand-written
optional impls exist, and no required-in-native `impl` exists. -/
def jsonAnyLifting (s : Serde T) : Lifting (Json T) Any where
  packOpt := some (Json.packOption s)
  unpackOpt := some fun w => some (Json.unpackOption s w)
  packReq := none
  unpackReq := none

/-! ## Concrete test fixtures -/

/-- Structured value of the spec's concrete scenario. -/
def demoValue : Value := .obj [("a", .num 1), ("b", .arr [.bool true, .null])]

/-- Compact JSON payload of the concrete scenario. -/
def demoPayload : String :=
  String.mk ['\x7b', '"', 'a', '"', ':', '1', ',', '"', 'b', '"', ':', '[', 't', 'r', 'u', 'e',
    ',', 'n', 'u', 'l', 'l', ']', '\x7d']

/-- Representative serializable struct type with a required and an optional
field, for exercising the boxed wrapper. -/
structure TestRec where
  n : Int
  flag : Option Bool
  deriving DecidableEq

/-- Hand-written serialization of `TestRec` through the structured tree,
mirroring what a serde derive produces (map keys in sorted order). -/
def testRecSerde : Serde TestRec where
  toValue r :=
    .ok (.obj [("flag", match r.flag with | some b => .bool b | none => .null),
               ("n", .num r.n)])
  fromValue v :=
    match v with
    | .obj [("flag", f), ("n", .num n)] =>
      match f with
      | .bool b => .ok ⟨n, some b⟩
      | .null => .ok ⟨n, none⟩
      | _ => .error "invalid type"
    | _ => .error "invalid type"

/-! ## Fuel measure for the reader -/

mutual

/-- Nesting measure of a value: a fuel at least this large lets the reader
consume the printed form. -/
def mVal : Value → Nat
  | .null | .bool _ | .num _ | .str _ => 1
  | .arr xs => 1 + mItems xs
  | .obj kvs => 1 + mEntries kvs

/-- Nesting measure of an array tail. -/
def mItems : List Value → Nat
  | [] => 0
  | x :: t => 1 + max (mVal x) (mItems t)

/-- Nesting measure of an object tail. -/
def mEntries : List (String × Value) → Nat
  | [] => 0
  | e :: t => 1 + max (mVal e.2) (mEntries t)

end

theorem mVal_pos : ∀ v, 1 ≤ mVal v
  | .null | .bool _ | .num _ | .str _ => le_refl 1
  | .arr _ => Nat.le_add_right 1 _
  | .obj _ => Nat.le_add_right 1 _

/-! ## Key-order facts -/

theorem keyLtL_irrefl : ∀ l : List Char, keyLtL l l = false
  | [] => rfl
  | x :: xs => by simp [keyLtL, keyLtL_irrefl xs]

theorem keyLtL_asymm : ∀ l r : List Char, keyLtL l r = true → keyLtL r l = false
  | [], [] => by simp [keyLtL]
  | [], _ :: _ => by simp [keyLtL]
  | _ :: _, [] => by simp [keyLtL]
  | x :: xs, y :: ys => by
    simp only [keyLtL]
    by_cases h1 : x.toNat < y.toNat
    · simp [h1, Nat.lt_asymm h1]
    · by_cases h2 : y.toNat < x.toNat
      · simp [h1, h2]
      · simp [h1, h2]
        exact keyLtL_asymm xs ys

theorem keyLt_irrefl (a : String) : keyLt a a = false := keyLtL_irrefl a.data

theorem keyLt_asymm (a b : String) (h : keyLt a b = true) : keyLt b a = false :=
  keyLtL_asymm a.data b.data h

theorem keyLt_ne (a b : String) (h : keyLt a b = true) : b ≠ a := by
  intro he
  subst he
  rw [keyLt_irrefl] at h
  exact Bool.false_ne_true h

/-! ## Reconstructing a sorted map from its printed entries -/

theorem insertSorted_append (k : String) (v : Value) :
    ∀ acc : List (String × Value), (∀ e ∈ acc, keyLt e.1 k = true) →
    insertSorted k v acc = acc ++ [(k, v)]
  | [], _ => rfl
  | (k', v') :: t, h => by
    have hk : keyLt k' k = true := h (k', v') (List.mem_cons_self _ _)
    simp only [insertSorted, keyLt_asymm k' k hk, keyLt_ne k' k hk, if_false,
      Bool.false_eq_true, ite_false]
    simp [insertSorted_append k v t (fun e he => h e (List.mem_cons_of_mem _ he))]

theorem keysSorted_head : ∀ (acc : List (String × Value)) (e : String × Value)
    (t : List (String × Value)), keysSorted (acc ++ e :: t) = true →
    ∀ p ∈ acc, keyLt p.1 e.1 = true
  | [], _, _, _ => by simp
  | p0 :: acc, e, t, h => by
    intro p hp
    simp only [List.cons_append, keysSorted, Bool.and_eq_true, List.all_eq_true] at h
    rcases List.mem_cons.mp hp with hpe | hpm
    · subst hpe
      exact h.1 e (by simp)
    · exact keysSorted_head acc e t h.2 p hpm

theorem foldl_insertSorted : ∀ (kvs acc : List (String × Value)),
    keysSorted (acc ++ kvs) = true →
    List.foldl (fun acc e => insertSorted e.1 e.2 acc) acc kvs = acc ++ kvs
  | [], acc, _ => by simp
  | e :: t, acc, h => by
    simp only [List.foldl_cons]
    rw [insertSorted_append e.1 e.2 acc (keysSorted_head acc e t h)]
    have h2 : keysSorted ((acc ++ [e]) ++ t) = true := by
      rw [List.append_assoc, List.singleton_append]
      exact h
    rw [foldl_insertSorted t (acc ++ [e]) h2, List.append_assoc, List.singleton_append]

theorem mkObj_sorted (kvs : List (String × Value)) (h : keysSorted kvs = true) :
    mkObj kvs = kvs := by
  have := foldl_insertSorted kvs [] (by simpa using h)
  simpa [mkObj] using this

/-! ## Decimal digit round trip -/

theorem digitChar_isDigitC : ∀ d, d < 10 → isDigitC (Nat.digitChar d) = true := by decide

theorem digitVal_digitChar : ∀ d, d < 10 → digitVal (Nat.digitChar d) = d := by decide

theorem natCharsCore_eq_digits : ∀ fuel n acc, n < fuel →
    natCharsCore fuel n acc = ((Nat.digits 10 n).map Nat.digitChar).reverse ++ acc := by
  intro fuel
  induction fuel with
  | zero => intro n acc h; omega
  | succ f ih =>
    intro n acc h
    by_cases h0 : n = 0
    · subst h0; simp [natCharsCore]
    · rw [natCharsCore, if_neg h0, ih (n / 10) _ (by omega),
        Nat.digits_def' (by norm_num : (1 : Nat) < 10) (Nat.pos_of_ne_zero h0)]
      simp

theorem natChars_eq_digits (n : Nat) (h : n ≠ 0) :
    natChars n = ((Nat.digits 10 n).map Nat.digitChar).reverse := by
  rw [natChars, if_neg h, natCharsCore_eq_digits (n + 1) n [] (by omega), List.append_nil]

theorem natChars_all_digits (n : Nat) : ∀ c ∈ natChars n, isDigitC c = true := by
  by_cases h : n = 0
  · subst h; decide
  · rw [natChars_eq_digits n h]
    intro c hc
    rw [List.mem_reverse, List.mem_map] at hc
    obtain ⟨d, hd, rfl⟩ := hc
    exact digitChar_isDigitC d (Nat.digits_lt_base (by norm_num) hd)

theorem natChars_ne_nil (n : Nat) : natChars n ≠ [] := by
  by_cases h : n = 0
  · subst h; simp [natChars]
  · rw [natChars_eq_digits n h]
    simp [Nat.digits_ne_nil_iff_ne_zero.mpr h]

theorem parseDigitsAux_run : ∀ (L : List Nat) (acc : Nat) (rest : List Char),
    (∀ d ∈ L, d < 10) →
    parseDigitsAux acc ((L.map Nat.digitChar).reverse ++ rest) =
      parseDigitsAux (acc * 10 ^ L.length + Nat.ofDigits 10 L) rest
  | [], acc, rest, _ => by simp [Nat.ofDigits]
  | d :: L, acc, rest, h => by
    have hd : d < 10 := h d (List.mem_cons_self _ _)
    have hL : ∀ x ∈ L, x < 10 := fun x hx => h x (List.mem_cons_of_mem _ hx)
    rw [List.map_cons, List.reverse_cons, List.append_assoc, List.singleton_append,
      parseDigitsAux_run L acc (Nat.digitChar d :: rest) hL]
    rw [parseDigitsAux, if_pos (digitChar_isDigitC d hd), digitVal_digitChar d hd]
    congr 1
    rw [Nat.ofDigits_cons, List.length_cons, pow_succ]
    ring

/-- Head test used to state that the reader will stop at the end of a printed
number: the remaining input must not begin with another digit. -/
def noDigitHead : List Char → Bool
  | [] => true
  | c :: _ => !isDigitC c

theorem parseDigitsAux_stop (m : Nat) (rest : List Char) (h : noDigitHead rest = true) :
    parseDigitsAux m rest = (m, rest) := by
  cases rest with
  | nil => rfl
  | cons c r =>
    simp only [noDigitHead, Bool.not_eq_true'] at h
    simp [parseDigitsAux, h]

theorem parseDigitsAux_natChars (n : Nat) (rest : List Char) (h : noDigitHead rest = true) :
    parseDigitsAux 0 (natChars n ++ rest) = (n, rest) := by
  by_cases h0 : n = 0
  · subst h0
    have : natChars 0 ++ rest = '0' :: rest := by simp [natChars]
    rw [this, parseDigitsAux]
    norm_num [isDigitC, digitVal]
    exact parseDigitsAux_stop 0 rest h
  · rw [natChars_eq_digits n h0,
      parseDigitsAux_run (Nat.digits 10 n) 0 rest
        (fun d hd => Nat.digits_lt_base (by norm_num) hd),
      Nat.zero_mul, Nat.zero_add, Nat.ofDigits_digits]
    exact parseDigitsAux_stop n rest h

/-! ## String escape round trip -/

theorem hexVal_digitChar : ∀ d, d < 16 → hexVal (Nat.digitChar d) = d := by decide

theorem char_eq_of_toNat {c : Char} {m : Nat} (h : c.toNat = m) : c = Char.ofNat m := by
  rw [← h, Char.ofNat_toNat]

set_option maxHeartbeats 2000000 in
theorem psb_quote (r : List Char) : parseStringBody ('"' :: r) = .ok ([], r) := by
  rw [parseStringBody.eq_def]
  dsimp only
  rw [if_pos rfl]

theorem psb_esc_quote (r : List Char) : parseStringBody ('\\' :: '"' :: r) =
    match parseStringBody r with
    | .ok (s, r2) => .ok ('"' :: s, r2)
    | .error err => .error err := by
  rw [parseStringBody.eq_def]
  dsimp only
  rw [if_neg (by decide : ¬ ('\\' : Char) = '"'), if_pos (rfl : ('\\' : Char) = '\\'),
    if_neg (by decide : ¬ ('"' : Char) = 'u'),
    show unescapeChar '"' = some '"' from rfl]

theorem psb_esc_bs (r : List Char) : parseStringBody ('\\' :: '\\' :: r) =
    match parseStringBody r with
    | .ok (s, r2) => .ok ('\\' :: s, r2)
    | .error err => .error err := by
  rw [parseStringBody.eq_def]
  dsimp only
  rw [if_neg (by decide : ¬ ('\\' : Char) = '"'), if_pos (rfl : ('\\' : Char) = '\\'),
    if_neg (by decide : ¬ ('\\' : Char) = 'u'),
    show unescapeChar '\\' = some '\\' from rfl]

theorem psb_esc_b (r : List Char) : parseStringBody ('\\' :: 'b' :: r) =
    match parseStringBody r with
    | .ok (s, r2) => .ok ('\x08' :: s, r2)
    | .error err => .error err := by
  rw [parseStringBody.eq_def]
  dsimp only
  rw [if_neg (by decide : ¬ ('\\' : Char) = '"'), if_pos (rfl : ('\\' : Char) = '\\'),
    if_neg (by decide : ¬ ('b' : Char) = 'u'),
    show unescapeChar 'b' = some '\x08' from rfl]

theorem psb_esc_t (r : List Char) : parseStringBody ('\\' :: 't' :: r) =
    match parseStringBody r with
    | .ok (s, r2) => .ok ('\x09' :: s, r2)
    | .error err => .error err := by
  rw [parseStringBody.eq_def]
  dsimp only
  rw [if_neg (by decide : ¬ ('\\' : Char) = '"'), if_pos (rfl : ('\\' : Char) = '\\'),
    if_neg (by decide : ¬ ('t' : Char) = 'u'),
    show unescapeChar 't' = some '\x09' from rfl]

theorem psb_esc_n (r : List Char) : parseStringBody ('\\' :: 'n' :: r) =
    match parseStringBody r with
    | .ok (s, r2) => .ok ('\x0a' :: s, r2)
    | .error err => .error err := by
  rw [parseStringBody.eq_def]
  dsimp only
  rw [if_neg (by decide : ¬ ('\\' : Char) = '"'), if_pos (rfl : ('\\' : Char) = '\\'),
    if_neg (by decide : ¬ ('n' : Char) = 'u'),
    show unescapeChar 'n' = some '\x0a' from rfl]

theorem psb_esc_f (r : List Char) : parseStringBody ('\\' :: 'f' :: r) =
    match parseStringBody r with
    | .ok (s, r2) => .ok ('\x0c' :: s, r2)
    | .error err => .error err := by
  rw [parseStringBody.eq_def]
  dsimp only
  rw [if_neg (by decide : ¬ ('\\' : Char) = '"'), if_pos (rfl : ('\\' : Char) = '\\'),
    if_neg (by decide : ¬ ('f' : Char) = 'u'),
    show unescapeChar 'f' = some '\x0c' from rfl]

theorem psb_esc_r (r : List Char) : parseStringBody ('\\' :: 'r' :: r) =
    match parseStringBody r with
    | .ok (s, r2) => .ok ('\x0d' :: s, r2)
    | .error err => .error err := by
  rw [parseStringBody.eq_def]
  dsimp only
  rw [if_neg (by decide : ¬ ('\\' : Char) = '"'), if_pos (rfl : ('\\' : Char) = '\\'),
    if_neg (by decide : ¬ ('r' : Char) = 'u'),
    show unescapeChar 'r' = some '\x0d' from rfl]

theorem psb_lit (c : Char) (r : List Char) (h1 : ¬ c = '"') (h2 : ¬ c = '\\')
    (h3 : ¬ c.toNat < 32) : parseStringBody (c :: r) =
    match parseStringBody r with
    | .ok (s, r2) => .ok (c :: s, r2)
    | .error err => .error err := by
  rw [parseStringBody.eq_def]
  dsimp only
  rw [if_neg h1, if_neg h2, if_neg h3]

theorem psb_u00 (a b : Nat) (ha : a < 2) (hb : b < 16) (r : List Char) :
    parseStringBody ('\\' :: 'u' :: '0' :: '0' :: Nat.digitChar a :: Nat.digitChar b :: r) =
    match parseStringBody r with
    | .ok (s, r2) => .ok (Char.ofNat (16 * a + b) :: s, r2)
    | .error err => .error err := by
  have h0 : hexVal '0' = 0 := by decide
  have hrd : readHex4v ('0' :: '0' :: Nat.digitChar a :: Nat.digitChar b :: r) =
      some (16 * a + b) := by
    simp only [readHex4v, h0, hexVal_digitChar a (by omega : a < 16), hexVal_digitChar b hb]
    rw [if_pos]
    · congr 1
      ring
    · simp only [Bool.and_eq_true, decide_eq_true_eq]
      omega
  rw [parseStringBody.eq_def]
  dsimp only
  rw [if_neg (by decide : ¬ ('\\' : Char) = '"'), if_pos (rfl : ('\\' : Char) = '\\'),
    if_pos (rfl : ('u' : Char) = 'u'), hrd]
  dsimp only
  have c2 : ¬ ((55296 ≤ 16 * a + b && 16 * a + b ≤ 56319) = true) := by
    simp only [Bool.and_eq_true, decide_eq_true_eq, not_and]
    omega
  have c3 : ¬ ((56320 ≤ 16 * a + b && 16 * a + b ≤ 57343) = true) := by
    simp only [Bool.and_eq_true, decide_eq_true_eq, not_and]
    omega
  rw [if_neg c2, if_neg c3,
    show List.drop 4 ('0' :: '0' :: Nat.digitChar a :: Nat.digitChar b :: r) = r from rfl]

theorem parseStringBody_escape : ∀ (s rest : List Char),
    parseStringBody (escapeChars s ++ '"' :: rest) = .ok (s, rest)
  | [], rest => by simp only [escapeChars, List.nil_append, psb_quote]
  | c :: t, rest => by
    have ih := parseStringBody_escape t rest
    by_cases hq : c = '"'
    · subst hq
      rw [escapeChars, show escapeOne '"' = ['\\', '"'] from rfl]
      simp only [List.cons_append, List.nil_append]
      rw [psb_esc_quote, ih]
    · by_cases hb : c = '\\'
      · subst hb
        rw [escapeChars, show escapeOne '\\' = ['\\', '\\'] from rfl]
        simp only [List.cons_append, List.nil_append]
        rw [psb_esc_bs, ih]
      · by_cases hctl : c.toNat < 32
        · by_cases h8 : c.toNat = 8
          · have hc : c = '\x08' := by
              have := char_eq_of_toNat h8
              simpa using this
            subst hc
            rw [escapeChars, show escapeOne '\x08' = ['\\', 'b'] from rfl]
            simp only [List.cons_append, List.nil_append]
            rw [psb_esc_b, ih]
          · by_cases h9 : c.toNat = 9
            · have hc : c = '\x09' := by
                have := char_eq_of_toNat h9
                simpa using this
              subst hc
              rw [escapeChars, show escapeOne '\x09' = ['\\', 't'] from rfl]
              simp only [List.cons_append, List.nil_append]
              rw [psb_esc_t, ih]
            · by_cases h10 : c.toNat = 10
              · have hc : c = '\x0a' := by
                  have := char_eq_of_toNat h10
                  simpa using this
                subst hc
                rw [escapeChars, show escapeOne '\x0a' = ['\\', 'n'] from rfl]
                simp only [List.cons_append, List.nil_append]
                rw [psb_esc_n, ih]
              · by_cases h12 : c.toNat = 12
                · have hc : c = '\x0c' := by
                    have := char_eq_of_toNat h12
                    simpa using this
                  subst hc
                  rw [escapeChars, show escapeOne '\x0c' = ['\\', 'f'] from rfl]
                  simp only [List.cons_append, List.nil_append]
                  rw [psb_esc_f, ih]
                · by_cases h13 : c.toNat = 13
                  · have hc : c = '\x0d' := by
                      have := char_eq_of_toNat h13
                      simpa using this
                    subst hc
                    rw [escapeChars, show escapeOne '\x0d' = ['\\', 'r'] from rfl]
                    simp only [List.cons_append, List.nil_append]
                    rw [psb_esc_r, ih]
                  · have hesc : escapeOne c = ['\\', 'u', '0', '0',
                        Nat.digitChar (c.toNat / 16), Nat.digitChar (c.toNat % 16)] := by
                      rw [escapeOne, if_neg hq, if_neg hb, if_pos hctl, if_neg h8,
                        if_neg h9, if_neg h10, if_neg h12, if_neg h13]
                    rw [escapeChars, hesc]
                    simp only [List.cons_append, List.nil_append]
                    rw [psb_u00 (c.toNat / 16) (c.toNat % 16) (by omega) (by omega), ih]
                    have hn : 16 * (c.toNat / 16) + c.toNat % 16 = c.toNat := by omega
                    rw [hn, Char.ofNat_toNat]
        · have hesc : escapeOne c = [c] := by
            rw [escapeOne, if_neg hq, if_neg hb, if_neg hctl]
          rw [escapeChars, hesc]
          simp only [List.cons_append, List.nil_append]
          rw [psb_lit c _ hq hb hctl, ih]

/-! ## Reader step lemmas -/

theorem string_mk_data (s : String) : String.mk s.data = s := rfl

theorem pv_null (f : Nat) (r : List Char) :
    parseValue (f + 1) ('n' :: 'u' :: 'l' :: 'l' :: r) = .ok (.null, r) := by
  rw [parseValue.eq_def]
  dsimp only
  rw [if_neg (by decide : ¬ (isDigitC 'n' = true)), if_neg (by decide : ¬ ('n' : Char) = '-'),
    if_pos (rfl : ('n' : Char) = 'n')]
  rfl

theorem pv_true (f : Nat) (r : List Char) :
    parseValue (f + 1) ('t' :: 'r' :: 'u' :: 'e' :: r) = .ok (.bool true, r) := by
  rw [parseValue.eq_def]
  dsimp only
  rw [if_neg (by decide : ¬ (isDigitC 't' = true)), if_neg (by decide : ¬ ('t' : Char) = '-'),
    if_neg (by decide : ¬ ('t' : Char) = 'n'), if_pos (rfl : ('t' : Char) = 't')]
  rfl

theorem pv_false (f : Nat) (r : List Char) :
    parseValue (f + 1) ('f' :: 'a' :: 'l' :: 's' :: 'e' :: r) = .ok (.bool false, r) := by
  rw [parseValue.eq_def]
  dsimp only
  rw [if_neg (by decide : ¬ (isDigitC 'f' = true)), if_neg (by decide : ¬ ('f' : Char) = '-'),
    if_neg (by decide : ¬ ('f' : Char) = 'n'), if_neg (by decide : ¬ ('f' : Char) = 't'),
    if_pos (rfl : ('f' : Char) = 'f')]
  rfl

theorem pv_digit (f : Nat) (c : Char) (r : List Char) (h : isDigitC c = true) :
    parseValue (f + 1) (c :: r) =
      .ok (.num (Int.ofNat (parseDigitsAux 0 (c :: r)).1), (parseDigitsAux 0 (c :: r)).2) := by
  rw [parseValue.eq_def]
  dsimp only
  rw [if_pos h]

theorem pv_neg (f : Nat) (d : Char) (r : List Char) (h : isDigitC d = true) :
    parseValue (f + 1) ('-' :: d :: r) =
      .ok (.num (-(Int.ofNat (parseDigitsAux 0 (d :: r)).1)), (parseDigitsAux 0 (d :: r)).2) := by
  rw [parseValue.eq_def]
  dsimp only
  rw [if_neg (by decide : ¬ (isDigitC '-' = true)), if_pos (rfl : ('-' : Char) = '-')]
  rw [if_pos h]

theorem pv_str (f : Nat) (r : List Char) :
    parseValue (f + 1) ('"' :: r) =
      match parseStringBody r with
      | .ok (s, r2) => .ok (.str (String.mk s), r2)
      | .error e => .error e := by
  rw [parseValue.eq_def]
  dsimp only
  rw [if_neg (by decide : ¬ (isDigitC '"' = true)), if_neg (by decide : ¬ ('"' : Char) = '-'),
    if_neg (by decide : ¬ ('"' : Char) = 'n'), if_neg (by decide : ¬ ('"' : Char) = 't'),
    if_neg (by decide : ¬ ('"' : Char) = 'f'), if_pos (rfl : ('"' : Char) = '"')]

theorem pv_arr (f : Nat) (r : List Char) :
    parseValue (f + 1) ('[' :: r) =
      if r.head? = some ']' then .ok (.arr [], r.tail)
      else
        match parseItemsNE f r with
        | .ok (vs, r2) => .ok (.arr vs, r2)
        | .error e => .error e := by
  rw [parseValue.eq_def]
  dsimp only
  rw [if_neg (by decide : ¬ (isDigitC '[' = true)), if_neg (by decide : ¬ ('[' : Char) = '-'),
    if_neg (by decide : ¬ ('[' : Char) = 'n'), if_neg (by decide : ¬ ('[' : Char) = 't'),
    if_neg (by decide : ¬ ('[' : Char) = 'f'), if_neg (by decide : ¬ ('[' : Char) = '"'),
    if_pos (rfl : ('[' : Char) = '[')]

theorem pv_obj (f : Nat) (r : List Char) :
    parseValue (f + 1) ('\x7b' :: r) =
      if r.head? = some '\x7d' then .ok (.obj [], r.tail)
      else
        match parseEntriesNE f r with
        | .ok (es, r2) => .ok (.obj (mkObj es), r2)
        | .error e => .error e := by
  rw [parseValue.eq_def]
  dsimp only
  rw [if_neg (by decide : ¬ (isDigitC '\x7b' = true)),
    if_neg (by decide : ¬ ('\x7b' : Char) = '-'), if_neg (by decide : ¬ ('\x7b' : Char) = 'n'),
    if_neg (by decide : ¬ ('\x7b' : Char) = 't'), if_neg (by decide : ¬ ('\x7b' : Char) = 'f'),
    if_neg (by decide : ¬ ('\x7b' : Char) = '"'), if_neg (by decide : ¬ ('\x7b' : Char) = '['),
    if_pos (rfl : ('\x7b' : Char) = '\x7b')]

theorem pi_step (f : Nat) (input : List Char) :
    parseItemsNE (f + 1) input =
      match parseValue f input with
      | .error e => .error e
      | .ok (v, r) =>
        match r with
        | c :: r2 =>
          if c = ',' then
            match parseItemsNE f r2 with
            | .ok (vs, r3) => .ok (v :: vs, r3)
            | .error e => .error e
          else if c = ']' then .ok ([v], r2)
          else .error "expected comma or closing bracket"
        | [] => .error "expected comma or closing bracket" := by
  rw [parseItemsNE.eq_def]

theorem pe_step (f : Nat) (r0 : List Char) :
    parseEntriesNE (f + 1) ('"' :: r0) =
      match parseStringBody r0 with
      | .error e => .error e
      | .ok (k, r1) =>
        match r1 with
        | c1 :: r2 =>
          if c1 = ':' then
            match parseValue f r2 with
            | .error e => .error e
            | .ok (v, r3) =>
              match r3 with
              | c3 :: r4 =>
                if c3 = ',' then
                  match parseEntriesNE f r4 with
                  | .ok (es, r5) => .ok ((String.mk k, v) :: es, r5)
                  | .error e => .error e
                else if c3 = '\x7d' then .ok ([(String.mk k, v)], r4)
                else .error "expected comma or closing brace"
              | [] => .error "expected comma or closing brace"
          else .error "expected colon"
        | [] => .error "expected colon" := by
  rw [parseEntriesNE.eq_def]
  dsimp only
  rw [if_pos (rfl : ('"' : Char) = '"')]

/-! ## Shape of printed output -/

theorem printValue_head_not_rb : ∀ v : Value, ∃ c cs, printValue v = c :: cs ∧ ¬ c = ']'
  | .null => ⟨'n', _, rfl, by decide⟩
  | .bool true => ⟨'t', _, rfl, by decide⟩
  | .bool false => ⟨'f', _, rfl, by decide⟩
  | .str s => ⟨'"', _, rfl, by decide⟩
  | .arr xs => ⟨'[', _, rfl, by decide⟩
  | .obj kvs => ⟨'\x7b', _, rfl, by decide⟩
  | .num n => by
    by_cases hn : n < 0
    · exact ⟨'-', natChars n.natAbs, by simp [printValue, intChars, hn], by decide⟩
    · obtain ⟨c, cs, hc⟩ := List.exists_cons_of_ne_nil (natChars_ne_nil n.toNat)
      refine ⟨c, cs, by simp [printValue, intChars, hn, hc], ?_⟩
      have hd : isDigitC c = true := by
        apply natChars_all_digits n.toNat
        rw [hc]
        exact List.mem_cons_self _ _
      intro he
      subst he
      exact absurd hd (by decide)

theorem printItems_cons_shape : ∀ (x : Value) (t : List Value) (r : List Char),
    ∃ X, printItems (x :: t) ++ r = printValue x ++ X
  | x, [], r => ⟨r, by simp [printItems]⟩
  | x, y :: t2, r => ⟨',' :: (printItems (y :: t2) ++ r), by simp [printItems]⟩

theorem printItems_head_ne_rb (x : Value) (t : List Value) (r : List Char) :
    ¬ ((printItems (x :: t) ++ ']' :: r).head? = some ']') := by
  obtain ⟨X, hX⟩ := printItems_cons_shape x t (']' :: r)
  obtain ⟨c, cs, hc, hcr⟩ := printValue_head_not_rb x
  rw [hX, hc]
  simp [hcr]

theorem printEntries_cons_shape : ∀ (e : String × Value) (t : List (String × Value))
    (r : List Char), ∃ X, printEntries (e :: t) ++ r = '"' :: X
  | e, [], r => ⟨escapeChars e.1.data ++ ['"'] ++ (':' :: printValue e.2 ++ r), by
      simp [printEntries, strChars]⟩
  | e, e2 :: t2, r => ⟨escapeChars e.1.data ++ ['"'] ++
      (':' :: printValue e.2 ++ ',' :: (printEntries (e2 :: t2) ++ r)), by
      simp [printEntries, strChars]⟩

theorem printEntries_head_ne_rb (e : String × Value) (t : List (String × Value)) (r : List Char) :
    ¬ ((printEntries (e :: t) ++ '\x7d' :: r).head? = some '\x7d') := by
  obtain ⟨X, hX⟩ := printEntries_cons_shape e t ('\x7d' :: r)
  rw [hX]
  simp

/-! ## The printed form fits in the reader fuel -/

mutual

theorem mVal_le_print : ∀ v : Value, mVal v ≤ (printValue v).length + 1
  | .null => by simp [mVal, printValue]
  | .bool b => by cases b <;> simp [mVal, printValue]
  | .num n => by simp [mVal]
  | .str s => by simp [mVal]
  | .arr xs => by
    have h := mItems_le_print xs
    simp only [mVal, printValue, List.length_cons, List.length_append,
      List.length_singleton] at *
    omega
  | .obj kvs => by
    have h := mEntries_le_print kvs
    simp only [mVal, printValue, List.length_cons, List.length_append,
      List.length_singleton] at *
    omega

theorem mItems_le_print : ∀ l : List Value, mItems l ≤ (printItems l).length + 2
  | [] => by simp [mItems]
  | [x] => by
    have h := mVal_le_print x
    simp only [mItems, printItems, List.length_nil] at *
    omega
  | x :: y :: t2 => by
    have h1 := mVal_le_print x
    have h2 := mItems_le_print (y :: t2)
    simp only [mItems, printItems, List.length_cons, List.length_append] at *
    omega

theorem mEntries_le_print : ∀ l : List (String × Value),
    mEntries l ≤ (printEntries l).length + 2
  | [] => by simp [mEntries]
  | [(k, v)] => by
    have h := mVal_le_print v
    simp only [mEntries, printEntries, List.length_nil, List.length_cons,
      List.length_append] at *
    omega
  | (k, v) :: e2 :: t2 => by
    have h1 := mVal_le_print v
    have h2 := mEntries_le_print (e2 :: t2)
    simp only [mEntries, printEntries, List.length_cons, List.length_append] at *
    omega

end

/-! ## The reader inverts the printer -/

theorem parse_print_inv : ∀ fuel : Nat,
    (∀ v rest, Value.wf v = true → mVal v ≤ fuel → noDigitHead rest = true →
      parseValue fuel (printValue v ++ rest) = .ok (v, rest)) ∧
    (∀ x t rest, wfItems (x :: t) = true → mItems (x :: t) ≤ fuel →
      parseItemsNE fuel (printItems (x :: t) ++ ']' :: rest) = .ok (x :: t, rest)) ∧
    (∀ e t rest, wfEntries (e :: t) = true → mEntries (e :: t) ≤ fuel →
      parseEntriesNE fuel (printEntries (e :: t) ++ '\x7d' :: rest) = .ok (e :: t, rest)) := by
  intro fuel
  induction fuel with
  | zero =>
    refine ⟨fun v rest _ hm _ => absurd hm (by have := mVal_pos v; omega),
      fun x t rest _ hm => absurd hm (by simp only [mItems]; omega),
      fun e t rest _ hm => absurd hm (by simp only [mEntries]; omega)⟩
  | succ f ih =>
    obtain ⟨ihP, ihA, ihO⟩ := ih
    refine ⟨?_, ?_, ?_⟩
    · intro v rest hwf hm hnd
      cases v with
      | null =>
        rw [show printValue .null ++ rest = 'n' :: 'u' :: 'l' :: 'l' :: rest from rfl, pv_null]
      | bool b =>
        cases b
        · rw [show printValue (.bool false) ++ rest = 'f' :: 'a' :: 'l' :: 's' :: 'e' :: rest
            from rfl, pv_false]
        · rw [show printValue (.bool true) ++ rest = 't' :: 'r' :: 'u' :: 'e' :: rest
            from rfl, pv_true]
      | num n =>
        by_cases hneg : n < 0
        · obtain ⟨c, cs, hc⟩ := List.exists_cons_of_ne_nil (natChars_ne_nil n.natAbs)
          have hcd : isDigitC c = true := by
            apply natChars_all_digits n.natAbs
            rw [hc]
            exact List.mem_cons_self _ _
          have hsh : printValue (.num n) ++ rest = '-' :: c :: (cs ++ rest) := by
            simp [printValue, intChars, hneg, hc]
          rw [hsh, pv_neg f c (cs ++ rest) hcd]
          have hpd : parseDigitsAux 0 (c :: (cs ++ rest)) = (n.natAbs, rest) := by
            rw [show c :: (cs ++ rest) = (c :: cs) ++ rest from rfl, ← hc]
            exact parseDigitsAux_natChars _ _ hnd
          rw [hpd]
          have he : -(Int.ofNat n.natAbs) = n := by
            rw [Int.ofNat_eq_natCast]
            omega
          rw [he]
        · obtain ⟨c, cs, hc⟩ := List.exists_cons_of_ne_nil (natChars_ne_nil n.toNat)
          have hcd : isDigitC c = true := by
            apply natChars_all_digits n.toNat
            rw [hc]
            exact List.mem_cons_self _ _
          have hsh : printValue (.num n) ++ rest = c :: (cs ++ rest) := by
            simp [printValue, intChars, hneg, hc]
          rw [hsh, pv_digit f c (cs ++ rest) hcd]
          have hpd : parseDigitsAux 0 (c :: (cs ++ rest)) = (n.toNat, rest) := by
            rw [show c :: (cs ++ rest) = (c :: cs) ++ rest from rfl, ← hc]
            exact parseDigitsAux_natChars _ _ hnd
          rw [hpd]
          have he : Int.ofNat n.toNat = n := by
            rw [Int.ofNat_eq_natCast]
            omega
          rw [he]
      | str s =>
        have hsh : printValue (.str s) ++ rest = '"' :: (escapeChars s.data ++ '"' :: rest) := by
          simp [printValue, strChars]
        rw [hsh, pv_str, parseStringBody_escape]
      | arr xs =>
        cases xs with
        | nil =>
          rw [show printValue (.arr []) ++ rest = '[' :: ']' :: rest from rfl, pv_arr,
            if_pos (show (']' :: rest).head? = some ']' from rfl)]
          rfl
        | cons x t =>
          have hsh : printValue (.arr (x :: t)) ++ rest =
              '[' :: (printItems (x :: t) ++ ']' :: rest) := by
            simp [printValue]
          rw [hsh, pv_arr, if_neg (printItems_head_ne_rb x t rest)]
          have hwf' : wfItems (x :: t) = true := by simpa [Value.wf] using hwf
          have hm' : mItems (x :: t) ≤ f := by
            simp only [mVal] at hm
            omega
          rw [ihA x t rest hwf' hm']
      | obj kvs =>
        cases kvs with
        | nil =>
          rw [show printValue (.obj []) ++ rest = '\x7b' :: '\x7d' :: rest from rfl, pv_obj,
            if_pos (show ('\x7d' :: rest).head? = some '\x7d' from rfl)]
          rfl
        | cons e t =>
          have hsh : printValue (.obj (e :: t)) ++ rest =
              '\x7b' :: (printEntries (e :: t) ++ '\x7d' :: rest) := by
            simp [printValue]
          rw [hsh, pv_obj, if_neg (printEntries_head_ne_rb e t rest)]
          have hwf2 : keysSorted (e :: t) = true ∧ wfEntries (e :: t) = true := by
            simpa [Value.wf, Bool.and_eq_true] using hwf
          have hm' : mEntries (e :: t) ≤ f := by
            simp only [mVal] at hm
            omega
          rw [ihO e t rest hwf2.2 hm']
          dsimp only
          rw [mkObj_sorted _ hwf2.1]
    · intro x t rest hwf hm
      have hwfx : Value.wf x = true ∧ wfItems t = true := by
        simpa [wfItems, Bool.and_eq_true] using hwf
      rw [pi_step]
      cases t with
      | nil =>
        have hsh : printItems [x] ++ ']' :: rest = printValue x ++ (']' :: rest) := by
          simp [printItems]
        have hm' : mVal x ≤ f := by
          simp only [mItems] at hm
          omega
        rw [hsh, ihP x (']' :: rest) hwfx.1 hm' rfl]
        dsimp only
        rw [if_neg (by decide : ¬ (']' : Char) = ','), if_pos (rfl : (']' : Char) = ']')]
      | cons y t2 =>
        have hsh : printItems (x :: y :: t2) ++ ']' :: rest =
            printValue x ++ (',' :: (printItems (y :: t2) ++ ']' :: rest)) := by
          simp [printItems]
        have hm1 : mVal x ≤ f := by
          simp only [mItems] at hm
          omega
        have hm2 : mItems (y :: t2) ≤ f := by
          simp only [mItems] at hm ⊢
          omega
        rw [hsh, ihP x (',' :: (printItems (y :: t2) ++ ']' :: rest)) hwfx.1 hm1 rfl]
        dsimp only
        rw [if_pos (rfl : (',' : Char) = ','), ihA y t2 rest hwfx.2 hm2]
    · intro e t rest hwf hm
      obtain ⟨k, v⟩ := e
      have hwfv : Value.wf v = true ∧ wfEntries t = true := by
        simpa [wfEntries, Bool.and_eq_true] using hwf
      cases t with
      | nil =>
        have hsh : printEntries [(k, v)] ++ '\x7d' :: rest =
            '"' :: (escapeChars k.data ++ '"' :: (':' :: (printValue v ++ '\x7d' :: rest))) := by
          simp [printEntries, strChars]
        have hm' : mVal v ≤ f := by
          simp only [mEntries] at hm
          omega
        rw [hsh, pe_step, parseStringBody_escape]
        dsimp only
        rw [if_pos (rfl : (':' : Char) = ':'), ihP v ('\x7d' :: rest) hwfv.1 hm' rfl]
        dsimp only
        rw [if_neg (by decide : ¬ ('\x7d' : Char) = ','),
          if_pos (rfl : ('\x7d' : Char) = '\x7d'), string_mk_data]
      | cons e2 t2 =>
        have hsh : printEntries ((k, v) :: e2 :: t2) ++ '\x7d' :: rest =
            '"' :: (escapeChars k.data ++ '"' ::
              (':' :: (printValue v ++ ',' :: (printEntries (e2 :: t2) ++ '\x7d' :: rest)))) := by
          simp [printEntries, strChars]
        have hm1 : mVal v ≤ f := by
          simp only [mEntries] at hm
          omega
        have hm2 : mEntries (e2 :: t2) ≤ f := by
          simp only [mEntries] at hm ⊢
          omega
        rw [hsh, pe_step, parseStringBody_escape]
        dsimp only
        rw [if_pos (rfl : (':' : Char) = ':'),
          ihP v (',' :: (printEntries (e2 :: t2) ++ '\x7d' :: rest)) hwfv.1 hm1 rfl]
        dsimp only
        rw [if_pos (rfl : (',' : Char) = ','), ihO e2 t2 rest hwfv.2 hm2, string_mk_data]

/-! ## Round trip through the codec -/

theorem serde_roundtrip (v : Value) (hwf : Value.wf v = true) :
    serde_from_slice (serde_to_vec v) = .ok v := by
  have h := (parse_print_inv ((printValue v).length + 1)).1 v [] hwf (mVal_le_print v) rfl
  rw [List.append_nil] at h
  have hd : (String.mk (printValue v)).data = printValue v := rfl
  simp only [serde_from_slice, serde_to_vec, hd, h]

theorem pack_unpack_roundtrip (v : Value) (hwf : Value.wf v = true) :
    (Value.pack v).bind Value.unpack = .ok v := by
  show Value.unpack ⟨JSON_TYPE_URL, serde_to_vec v⟩ = .ok v
  simp only [Value.unpack, eq_self_iff_true, if_true, serde_roundtrip v hwf]

/-! ## Claims about the envelope codec -/

/-- C1: unpacking an envelope whose type tag is not the recognised JSON tag
fails with `JsonTypeUrlUnknown` carrying the offending tag verbatim, for every
payload; the payload is never inspected in that case. -/
theorem C1_unknown_tag_rejected (url payload : String) (h : url ≠ JSON_TYPE_URL) :
    Value.unpack ⟨url, payload⟩ = .error (.JsonTypeUrlUnknown url) := by
  simp only [Value.unpack]
  rw [if_neg h]

theorem C1_witness :
    ("other/format" : String) ≠ JSON_TYPE_URL ∧
    Value.unpack ⟨"other/format", "irrelevant payload"⟩ =
      .error (.JsonTypeUrlUnknown "other/format") :=
  ⟨by decide, C1_unknown_tag_rejected "other/format" "irrelevant payload" (by decide)⟩

/-- C8: unpacking an envelope with the recognised tag but a payload that the
JSON decoder rejects fails with a `Json` error wrapping the decode failure
(and, the model being total, never panics). -/
theorem C8_malformed_payload_rejected (payload : String) (e : String)
    (h : serde_from_slice payload = .error e) :
    Value.unpack ⟨JSON_TYPE_URL, payload⟩ = .error (.Json e) := by
  simp only [Value.unpack, eq_self_iff_true, if_true, h]

theorem C8_witness :
    serde_from_slice "not json" = .error "invalid literal" ∧
    Value.unpack ⟨JSON_TYPE_URL, "not json"⟩ = .error (.Json "invalid literal") :=
  ⟨by rfl, C8_malformed_payload_rejected "not json" "invalid literal" (by rfl)⟩

/-- C4: packing any well-formed structured value into an envelope and
unpacking it returns the value unchanged; concretely, the spec's example value
packs to the envelope with the JSON tag and the expected compact payload, and
that envelope unpacks to the original value.  (Well-formedness is the
`BTreeMap` key-order invariant every `serde_json` map carries.) -/
theorem C4_structured_roundtrip :
    (∀ v : Value, Value.wf v = true → (Value.pack v).bind Value.unpack = .ok v) ∧
    Value.pack demoValue = .ok ⟨JSON_TYPE_URL, demoPayload⟩ ∧
    Value.unpack ⟨JSON_TYPE_URL, demoPayload⟩ = .ok demoValue := by
  refine ⟨fun v h => pack_unpack_roundtrip v h, by rfl, ?_⟩
  have h := pack_unpack_roundtrip demoValue (by rfl)
  rw [show Value.pack demoValue = .ok ⟨JSON_TYPE_URL, demoPayload⟩ from rfl] at h
  exact h

theorem C4_witness :
    Value.wf demoValue = true ∧
    (Value.pack demoValue).bind Value.unpack = .ok demoValue :=
  ⟨by rfl, C4_structured_roundtrip.1 demoValue (by rfl)⟩

/-- C5: for a serializable value whose serialization round-trips through the
structured tree (and produces a well-formed tree, as serde maps always do),
packing the boxed wrapper and unpacking the envelope returns a wrapper with
the original value inside; the pack path is the double encoding native value →
structured tree → JSON bytes. -/
theorem C5_boxed_roundtrip (T : Type) (s : Serde T) (x : T) (v : Value)
    (h1 : s.toValue x = .ok v) (h2 : Value.wf v = true) (h3 : s.fromValue v = .ok x) :
    (Json.pack s ⟨x⟩).bind (Json.unpack s) = .ok ⟨x⟩ := by
  have hp : Json.pack s ⟨x⟩ = .ok ⟨JSON_TYPE_URL, serde_to_vec v⟩ := by
    simp only [Json.pack, pack_any, h1, Value.pack]
  rw [hp]
  show Json.unpack s ⟨JSON_TYPE_URL, serde_to_vec v⟩ = .ok ⟨x⟩
  have hu : Value.unpack ⟨JSON_TYPE_URL, serde_to_vec v⟩ = .ok v := by
    simp only [Value.unpack, eq_self_iff_true, if_true, serde_roundtrip v h2]
  simp only [Json.unpack, unpack_any, hu, h3]

theorem C5_witness :
    testRecSerde.toValue ⟨5, some true⟩ = .ok (.obj [("flag", .bool true), ("n", .num 5)]) ∧
    Value.wf (.obj [("flag", .bool true), ("n", .num 5)]) = true ∧
    testRecSerde.fromValue (.obj [("flag", .bool true), ("n", .num 5)]) = .ok ⟨5, some true⟩ ∧
    (Json.pack testRecSerde ⟨⟨5, some true⟩⟩).bind (Json.unpack testRecSerde) =
      .ok ⟨⟨5, some true⟩⟩ :=
  ⟨by rfl, by rfl, by rfl,
    C5_boxed_roundtrip TestRec testRecSerde ⟨5, some true⟩
      (.obj [("flag", .bool true), ("n", .num 5)]) (by rfl) (by rfl) (by rfl)⟩

/-! ## Laws of the optionality lifting -/

theorem packOptionOption_none (packF : α → Result β) : packOptionOption packF none = .ok none :=
  rfl

theorem packOptionOption_some (packF : α → Result β) (n : α) :
    packOptionOption packF (some n) = (packF n).map some := by
  rw [packOptionOption]
  cases packF n <;> rfl

theorem unpackOptionOption_none (unpackF : β → Result α) :
    unpackOptionOption unpackF none = .ok none := rfl

theorem unpackOptionOption_some (unpackF : β → Result α) (w : β) :
    unpackOptionOption unpackF (some w) = (unpackF w).map some := by
  rw [unpackOptionOption]
  cases unpackF w <;> rfl

theorem packRequired_eq (packF : α → Result β) (n : α) :
    packRequired packF n = (packF n).map some := by
  rw [packRequired]
  cases packF n <;> rfl

theorem unpackRequired_some (unpackF : β → Result α) (w : β) :
    unpackRequired unpackF (some w) = unpackF w := rfl

theorem unpackRequired_none (unpackF : β → Result α) :
    unpackRequired unpackF none = .error .ValueNotPresent := rfl

theorem dt_unpackOptionOption_none : DateTimeUtc.unpackOptionOption none = some (.ok none) :=
  rfl

theorem dt_unpackOptionOption_some (t : Timestamp) :
    DateTimeUtc.unpackOptionOption (some t) = (DateTimeUtc.unpack t).map (Except.map some) := by
  rw [DateTimeUtc.unpackOptionOption]
  cases h : DateTimeUtc.unpack t with
  | none => rfl
  | some r => cases r <;> rfl

theorem dt_unpackRequired_some (t : Timestamp) :
    DateTimeUtc.unpackRequired (some t) = DateTimeUtc.unpack t := rfl

theorem dt_unpackRequired_none :
    DateTimeUtc.unpackRequired none = some (.error .ValueNotPresent) := rfl

theorem jsonPackOption_none (s : Serde T) : Json.packOption s none = .ok none := rfl

theorem jsonPackOption_some (s : Serde T) (j : Json T) :
    Json.packOption s (some j) = (Json.pack s j).map some := by
  rw [Json.packOption]
  cases Json.pack s j <;> rfl

theorem jsonUnpackOption_none (s : Serde T) : Json.unpackOption s none = .ok none := rfl

theorem jsonUnpackOption_some (s : Serde T) (a : Any) :
    Json.unpackOption s (some a) = (Json.unpack s a).map some := by
  rw [Json.unpackOption]
  cases Json.unpack s a <;> rfl

/-- C2: the required-in-native variant derived by the optionality macro packs
every native value as `some` of the base pack, unpacks presence through the
base conversion (at the timestamp pairing even a panicking base propagates
unchanged), and fails absence with `ValueNotPresent`. -/
theorem C2_required_lifting :
    (∀ (α β : Type) (packF : α → Result β) (n : α),
      packRequired packF n = (packF n).map some) ∧
    (∀ (α β : Type) (unpackF : β → Result α) (w : β),
      unpackRequired unpackF (some w) = unpackF w) ∧
    (∀ (α β : Type) (unpackF : β → Result α),
      unpackRequired unpackF none = .error .ValueNotPresent) ∧
    (∀ t : Timestamp, DateTimeUtc.unpackRequired (some t) = DateTimeUtc.unpack t) ∧
    DateTimeUtc.unpackRequired none = some (.error .ValueNotPresent) :=
  ⟨fun _ _ packF n => packRequired_eq packF n,
    fun _ _ unpackF w => unpackRequired_some unpackF w,
    fun _ _ unpackF => unpackRequired_none unpackF,
    fun t => dt_unpackRequired_some t,
    dt_unpackRequired_none⟩

/-- C3: the optional-to-optional variant derived by the optionality macro maps
absence to absence in both directions and presence through the base
conversion; absence never produces an error. -/
theorem C3_option_lifting :
    (∀ (α β : Type) (packF : α → Result β), packOptionOption packF none = .ok none) ∧
    (∀ (α β : Type) (packF : α → Result β) (n : α),
      packOptionOption packF (some n) = (packF n).map some) ∧
    (∀ (α β : Type) (unpackF : β → Result α), unpackOptionOption unpackF none = .ok none) ∧
    (∀ (α β : Type) (unpackF : β → Result α) (w : β),
      unpackOptionOption unpackF (some w) = (unpackF w).map some) ∧
    DateTimeUtc.unpackOptionOption none = some (.ok none) ∧
    (∀ t : Timestamp, DateTimeUtc.unpackOptionOption (some t) =
      (DateTimeUtc.unpack t).map (Except.map some)) :=
  ⟨fun _ _ packF => packOptionOption_none packF,
    fun _ _ packF n => packOptionOption_some packF n,
    fun _ _ unpackF => unpackOptionOption_none unpackF,
    fun _ _ unpackF w => unpackOptionOption_some unpackF w,
    dt_unpackOptionOption_none,
    fun t => dt_unpackOptionOption_some t⟩

/-- C9: the identity conversions generated for every primitive scalar and its
optional form return the input unchanged wrapped in `Ok`, never an error, so
unpack after pack is the identity. -/
theorem C9_scalar_identity :
    ∀ (α : Type) (v : α), implSelfPack v = .ok v ∧ implSelfUnpack v = .ok v ∧
      (implSelfPack v).bind implSelfUnpack = .ok v :=
  fun _ _ => ⟨rfl, rfl, rfl⟩

/-! ## Timestamp claims -/

theorem fromTimestampOpt_pos (secs : Int) (nsecs : Nat) (h1 : nsecs < 2000000000)
    (h2 : MIN_DAYS ≤ secs / 86400 ∧ secs / 86400 ≤ MAX_DAYS) :
    NaiveDateTime.fromTimestampOpt secs nsecs =
      some ⟨secs / 86400, (secs % 86400).toNat, nsecs⟩ := by
  rw [NaiveDateTime.fromTimestampOpt.eq_def]
  rw [if_pos h1]
  rw [if_pos h2]

theorem unpack_eq_some (t : Timestamp) (dt : NaiveDateTime)
    (h : NaiveDateTime.fromTimestampOpt t.seconds (u32OfInt t.nanos) = some dt) :
    DateTimeUtc.unpack t = some (.ok ⟨dt⟩) := by
  rw [DateTimeUtc.unpack.eq_def, h]

theorem unpack_eq_none (t : Timestamp)
    (h : NaiveDateTime.fromTimestampOpt t.seconds (u32OfInt t.nanos) = none) :
    DateTimeUtc.unpack t = none := by
  rw [DateTimeUtc.unpack.eq_def, h]

/-- C6: packing a UTC instant whose nanosecond component is in
`[0, 1_000_000_000)` and unpacking the resulting wire record returns exactly
the original instant, with no precision loss and no panic.  The instant's
second-of-day and calendar-range bounds are the `chrono` type invariants. -/
theorem C6_timestamp_roundtrip (d : DateTimeUtc) (t : Timestamp)
    (hsod : d.naiveUtc.sod < 86400)
    (hdays : MIN_DAYS ≤ d.naiveUtc.days ∧ d.naiveUtc.days ≤ MAX_DAYS)
    (hn : d.naiveUtc.nsecs < 1000000000)
    (hp : DateTimeUtc.pack d = .ok t) :
    DateTimeUtc.unpack t = some (.ok d) := by
  have ht : t = ⟨d.timestamp, i32OfNat d.timestampSubsecNanos⟩ := by
    simp only [DateTimeUtc.pack, Except.ok.injEq] at hp
    exact hp.symm
  subst ht
  have h1 : u32OfInt (i32OfNat d.timestampSubsecNanos) = d.naiveUtc.nsecs := by
    simp only [u32OfInt, i32OfNat, DateTimeUtc.timestampSubsecNanos]
    omega
  have h2 : d.timestamp / 86400 = d.naiveUtc.days := by
    simp only [DateTimeUtc.timestamp]
    omega
  have h3 : (d.timestamp % 86400).toNat = d.naiveUtc.sod := by
    simp only [DateTimeUtc.timestamp]
    omega
  have hf : NaiveDateTime.fromTimestampOpt d.timestamp
      (u32OfInt (i32OfNat d.timestampSubsecNanos)) =
      some ⟨d.naiveUtc.days, d.naiveUtc.sod, d.naiveUtc.nsecs⟩ := by
    rw [h1, fromTimestampOpt_pos d.timestamp d.naiveUtc.nsecs (by omega)
      (by rw [h2]; exact hdays), h2, h3]
  exact unpack_eq_some ⟨d.timestamp, i32OfNat d.timestampSubsecNanos⟩
    ⟨d.naiveUtc.days, d.naiveUtc.sod, d.naiveUtc.nsecs⟩ hf

theorem C6_witness :
    (⟨⟨0, 0, 123456789⟩⟩ : DateTimeUtc).naiveUtc.sod < 86400 ∧
    MIN_DAYS ≤ (⟨⟨0, 0, 123456789⟩⟩ : DateTimeUtc).naiveUtc.days ∧
    (⟨⟨0, 0, 123456789⟩⟩ : DateTimeUtc).naiveUtc.days ≤ MAX_DAYS ∧
    (⟨⟨0, 0, 123456789⟩⟩ : DateTimeUtc).naiveUtc.nsecs < 1000000000 ∧
    DateTimeUtc.pack ⟨⟨0, 0, 123456789⟩⟩ = .ok ⟨0, 123456789⟩ ∧
    DateTimeUtc.unpack ⟨0, 123456789⟩ = some (.ok ⟨⟨0, 0, 123456789⟩⟩) :=
  ⟨by decide, by decide, by decide, by decide, by rfl,
    C6_timestamp_roundtrip ⟨⟨0, 0, 123456789⟩⟩ ⟨0, 123456789⟩
      (by decide) ⟨by decide, by decide⟩ (by decide) (by rfl)⟩

/-- C7: the claim says timestamp unpack never panics, but the code calls the
panicking `NaiveDateTime::from_timestamp(seconds, nanos as u32)`; for the wire
record with `nanos = -1` the cast yields `4294967295 ≥ 2_000_000_000` and the
call panics (modelled as `none`), contradicting the claim. -/
theorem C7_unpack_panics_on_negative_nanos :
    DateTimeUtc.unpack ⟨0, -1⟩ = none := by
  have h : u32OfInt (-1) = 4294967295 := by
    simp only [u32OfInt]
    omega
  refine unpack_eq_none ⟨0, -1⟩ ?_
  show NaiveDateTime.fromTimestampOpt 0 (u32OfInt (-1)) = none
  rw [h, NaiveDateTime.fromTimestampOpt.eq_def]
  rw [if_neg (by omega : ¬ (4294967295 : Nat) < 2000000000)]

/-! ## The lifting table claims -/

/-- C10 counterexample: the claim asserts both lifted variants exist for every
instantiated base pairing, but the boxed-wrapper pairing and the scalar
pairings have no required-in-native conversions at all. -/
theorem C10_lifting_counterexample :
    (jsonAnyLifting testRecSerde).unpackReq = none ∧
    (jsonAnyLifting testRecSerde).packReq = none ∧
    (scalarLifting Int).unpackReq = none ∧
    (scalarLifting Int).packReq = none :=
  ⟨rfl, rfl, rfl, rfl⟩

/-- C10 (amended): the two macro-instantiated pairings (structured value ↔
envelope, UTC instant ↔ timestamp) carry all four lifted conversions and obey
the lifting rules; the scalar pairings and the boxed-wrapper pairing carry
only the optional-to-optional variant, which obeys rule 1, and have no
required-in-native conversions. -/
theorem C10_lifting_table :
    (valueAnyLifting.packOpt = some (packOptionOption Value.pack) ∧
     valueAnyLifting.unpackOpt = some (fun w => some (unpackOptionOption Value.unpack w)) ∧
     valueAnyLifting.packReq = some (packRequired Value.pack) ∧
     valueAnyLifting.unpackReq = some (fun w => some (unpackRequired Value.unpack w))) ∧
    (dateTimeTimestampLifting.packOpt = some (packOptionOption DateTimeUtc.pack) ∧
     dateTimeTimestampLifting.unpackOpt = some DateTimeUtc.unpackOptionOption ∧
     dateTimeTimestampLifting.packReq = some (packRequired DateTimeUtc.pack) ∧
     dateTimeTimestampLifting.unpackReq = some DateTimeUtc.unpackRequired) ∧
    (∀ (N W : Type) (packF : N → Result W) (unpackF : W → Result N) (n : N) (w : W),
      packOptionOption packF none = .ok none ∧
      packOptionOption packF (some n) = (packF n).map some ∧
      unpackOptionOption unpackF none = .ok none ∧
      unpackOptionOption unpackF (some w) = (unpackF w).map some ∧
      packRequired packF n = (packF n).map some ∧
      unpackRequired unpackF (some w) = unpackF w ∧
      unpackRequired unpackF none = .error .ValueNotPresent) ∧
    (DateTimeUtc.unpackOptionOption none = some (.ok none) ∧
     (∀ t, DateTimeUtc.unpackOptionOption (some t) =
       (DateTimeUtc.unpack t).map (Except.map some)) ∧
     (∀ t, DateTimeUtc.unpackRequired (some t) = DateTimeUtc.unpack t) ∧
     DateTimeUtc.unpackRequired none = some (.error .ValueNotPresent)) ∧
    (∀ α : Type,
      (scalarLifting α).packOpt = some implSelfPack ∧
      (scalarLifting α).unpackOpt = some (fun w => some (implSelfUnpack w)) ∧
      (∀ o : Option α, implSelfPack o = .ok o ∧ implSelfUnpack o = .ok o) ∧
      (scalarLifting α).packReq = none ∧
      (scalarLifting α).unpackReq = none) ∧
    (∀ (T : Type) (s : Serde T),
      (jsonAnyLifting s).packOpt = some (Json.packOption s) ∧
      (jsonAnyLifting s).unpackOpt = some (fun w => some (Json.unpackOption s w)) ∧
      Json.packOption s none = .ok none ∧
      (∀ j : Json T, Json.packOption s (some j) = (Json.pack s j).map some) ∧
      Json.unpackOption s none = .ok none ∧
      (∀ a : Any, Json.unpackOption s (some a) = (Json.unpack s a).map some) ∧
      (jsonAnyLifting s).packReq = none ∧
      (jsonAnyLifting s).unpackReq = none) :=
  ⟨⟨rfl, rfl, rfl, rfl⟩,
    ⟨rfl, rfl, rfl, rfl⟩,
    fun _ _ packF unpackF n w =>
      ⟨packOptionOption_none packF, packOptionOption_some packF n,
        unpackOptionOption_none unpackF, unpackOptionOption_some unpackF w,
        packRequired_eq packF n, unpackRequired_some unpackF w,
        unpackRequired_none unpackF⟩,
    ⟨dt_unpackOptionOption_none, fun t => dt_unpackOptionOption_some t,
      fun t => dt_unpackRequired_some t, dt_unpackRequired_none⟩,
    fun _ => ⟨rfl, rfl, fun _ => ⟨rfl, rfl⟩, rfl, rfl⟩,
    fun _ s => ⟨rfl, rfl, jsonPackOption_none s, fun j => jsonPackOption_some s j,
      jsonUnpackOption_none s, fun a => jsonUnpackOption_some s a, rfl, rfl⟩⟩
